import Mathlib

/-!
# Verification of the code-agent core

A shallow embedding, in Lean 4, of the decision logic of the `code-agent`
GitHub action: event classification (`getEventType`), trigger resolution
(`processEvent`), history formatting (`genContentsString`), prompt assembly
and token budgeting (`generatePrompt` / `truncateToTokenLimit`), snapshot
diffing (`detectChanges`) and the layered ignore matcher used by snapshot
capture (`captureFileState`).

JavaScript strings are modelled as `List Char` (`JStr`); JavaScript string
operations (`trim`, `startsWith`, `indexOf`, `substring`, `replace`,
`split`, `toLowerCase`) are modelled by executable Lean functions on
`List Char`.  JavaScript truthiness of a string is "non-empty", of an
optional object is `Option.isSome`, and of a number is "non-zero".
-/

/-- JavaScript string, modelled as a list of characters. -/
abbrev JStr := List Char

/-- Coerce a Lean string literal to the `JStr` model. -/
def jstr (s : String) : JStr := s.data

/-- Whitespace class used by JavaScript `String.prototype.trim`
(the common ASCII whitespace characters; exotic Unicode space
characters do not occur in any input considered here). -/
def jsIsWs (c : Char) : Bool :=
  c = ' ' || c = '\t' || c = '\n' || c = '\r' || c = '\x0b' || c = '\x0c'

/-- Remove leading whitespace (`trimStart`). -/
def jsTrimStart (s : JStr) : JStr := s.dropWhile jsIsWs

/-- Remove trailing whitespace (`trimEnd`). -/
def jsTrimEnd (s : JStr) : JStr := (s.reverse.dropWhile jsIsWs).reverse

/-- JavaScript `trim`: remove whitespace from both ends. -/
def jsTrim (s : JStr) : JStr := jsTrimStart (jsTrimEnd s)

/-- JavaScript `startsWith`. -/
def jsStartsWith (s pat : JStr) : Bool := pat.isPrefixOf s

/-- First index of `pat` in `s` (`String.prototype.indexOf`), `-1` if absent. -/
def jsIndexOfAux (pat : JStr) : JStr → Int
  | [] => if pat = [] then 0 else -1
  | c :: rest =>
    if pat.isPrefixOf (c :: rest) then 0
    else
      let r := jsIndexOfAux pat rest
      if r = -1 then -1 else r + 1

/-- JavaScript `s.indexOf(pat)`. -/
def jsIndexOf (s pat : JStr) : Int := jsIndexOfAux pat s

/-- JavaScript `s.substring(start)` (negative start clamps to `0`). -/
def jsSubstringFrom (s : JStr) (start : Int) : JStr := s.drop start.toNat

/-- JavaScript `s.replace(pat, '')` with a string pattern: remove the
first occurrence of `pat`, or return `s` unchanged if absent. -/
def jsRemoveFirst (s pat : JStr) : JStr :=
  let i := jsIndexOf s pat
  if i = -1 then s else s.take i.toNat ++ s.drop (i.toNat + pat.length)

/-- JavaScript `s.split("\n")`. -/
def jsSplitNl (s : JStr) : List JStr := s.splitOn '\n'

/-- JavaScript `parts.join("\n")`. -/
def jsJoinNl (parts : List JStr) : JStr := List.intercalate (jstr "\n") parts

/-- JavaScript `s.toLowerCase()` (locale-independent; ASCII accurate). -/
def jsToLower (s : JStr) : JStr := s.map Char.toLower

/-- JavaScript truthiness of an optional string field:
present and non-empty. -/
def optTruthy (o : Option JStr) : Bool :=
  match o with
  | some s => !s.isEmpty
  | none => false

/-! ## History formatter

`genContentsString` from `src/claudecodeproxy.ts` (lines 37-60), the
revision exercised by the repository's own test-suite
(`src/__tests__/contents.test.ts`): a history item (issue/PR body or
comment) is rendered for the `[History]` section of the prompt. -/

/-- One history item: a body and its author login. -/
structure ContentItem where
  body : JStr
  login : JStr
deriving DecidableEq, Repr

/-- `genContentsString(content, userPrompt)` from
`src/claudecodeproxy.ts:37-60`.  Trims the body; empty bodies yield `""`;
a body starting with `/claude` is stripped of the command and included
unless equal to the current `userPrompt`; a body authored by
`github-actions[bot]` is quoted line-by-line; anything else yields `""`. -/
def genContentsString (content : ContentItem) (userPrompt : JStr) : JStr :=
  let body := jsTrim content.body
  let login := jsTrim content.login
  if body.isEmpty then []
  else if jsStartsWith body (jstr "/claude") then
    let body2 := jsTrim (jsSubstringFrom body (jsIndexOf body (jstr "/claude") + (jstr "/claude").length))
    if body2 = userPrompt then []
    else body2 ++ jstr "\n\n"
  else if login = jstr "github-actions[bot]" then
    jsJoinNl ((jsSplitNl body).map (fun line => jstr "> " ++ line)) ++ jstr "\n\n"
  else []

/-! ## Snapshot diff engine

`detectChanges` from `src/file/detectChanges.ts` (lines 61-92).  A file
snapshot is a JavaScript `Map<relativePath, hash>`, modelled as an
association list with unique keys; `Map.get` is first-match lookup.
The recapture of the current state (`captureFileState`) is I/O, so the
pure comparison takes both snapshots as arguments. -/

/-- A file snapshot: association list from relative path to digest. -/
abbrev Snapshot := List (String × String)

/-- `Map.get`: first binding for a key, `none` when absent. -/
def snapGet (m : Snapshot) (k : String) : Option String :=
  match m with
  | [] => none
  | e :: rest => if e.1 = k then some e.2 else snapGet rest k

/-- The key set of a snapshot. -/
def snapKeys (m : Snapshot) : List String := m.map Prod.fst

/-- The comparison loop of `detectChanges` (`src/file/detectChanges.ts:61-92`):
first every entry of the current state that is absent from the original
state (JS falsy check `!originalHash`, which also fires on an
empty-string hash) or carries a different hash; then every key of the
original state absent from the current state.  The JS `Set` is modelled
by the concatenation, which is duplicate-free because the two passes
touch disjoint key sets. -/
def detectChangesPure (originalState currentState : Snapshot) : List String :=
  (currentState.filter (fun e =>
    match snapGet originalState e.1 with
    | none => true
    | some originalHash => originalHash = "" || originalHash != e.2)).map Prod.fst
  ++ (originalState.map Prod.fst).filter (fun f => (snapGet currentState f).isNone)

/-! ## Event classification

`getEventType` from `src/github/github.ts` (lines 146-162), plus the raw
payload model.  Only the fields the classifier and the trigger resolver
read are modelled (`action`, `issue` with its `pull_request` marker,
`title`, `body`, `labels`; `comment` with `body` and `path`;
`pull_request` with `title`, `body`, `labels`; `label`).  Presence of an
object field is modelled by `Option.isSome` (objects are always truthy in
JS); the `pull_request` marker on an issue is modelled as a `Bool`
(`null`/absent vs. object). -/

/-- The `issue` object of a raw payload. -/
structure RawIssue where
  title : Option JStr
  body : Option JStr
  pull_request : Bool
  labels : Option (List JStr)
deriving DecidableEq, Repr

/-- The `comment` object of a raw payload. -/
structure RawComment where
  body : Option JStr
  path : Option JStr
deriving DecidableEq, Repr

/-- The `pull_request` object of a raw payload. -/
structure RawPR where
  title : Option JStr
  body : Option JStr
  labels : Option (List JStr)
deriving DecidableEq, Repr

/-- The raw webhook payload (the fields read by the core). -/
structure RawPayload where
  action : Option String
  issue : Option RawIssue
  comment : Option RawComment
  pull_request : Option RawPR
  label : Option JStr
deriving DecidableEq, Repr

/-- The four classified event kinds. -/
inductive EventKind where
  | issuesOpened
  | issueCommentCreated
  | pullRequestCommentCreated
  | pullRequestReviewCommentCreated
deriving DecidableEq, Repr

/-- `payload.issue && !payload.issue.pull_request`. -/
def issuePlain (p : RawPayload) : Bool :=
  match p.issue with
  | some i => !i.pull_request
  | none => false

/-- `payload.issue && payload.issue.pull_request`. -/
def issueMarked (p : RawPayload) : Bool :=
  match p.issue with
  | some i => i.pull_request
  | none => false

/-- Truthiness of `payload.comment.path` (present and non-empty). -/
def commentPathTruthy (p : RawPayload) : Bool :=
  match p.comment with
  | some c => optTruthy c.path
  | none => false

/-- `getEventType(payload)` from `src/github/github.ts:146-162`: the
ordered four-way classification; `none` models the `null` "unsupported"
outcome. -/
def getEventType (p : RawPayload) : Option EventKind :=
  if p.action == some "opened" && issuePlain p then
    some EventKind.issuesOpened
  else if p.action == some "created" && issuePlain p && p.comment.isSome then
    some EventKind.issueCommentCreated
  else if p.action == some "created" && issueMarked p && p.comment.isSome then
    some EventKind.pullRequestCommentCreated
  else if p.action == some "created" && p.pull_request.isSome && p.comment.isSome
      && commentPathTruthy p then
    some EventKind.pullRequestReviewCommentCreated
  else
    none

/-- `extractText(event)` from `src/github/github.ts:207-216`: the issue
body for an opened issue, else the comment body for a created comment,
else `null`. -/
def extractText (p : RawPayload) : Option JStr :=
  if p.action == some "opened" && p.issue.isSome then
    p.issue.bind RawIssue.body
  else if p.action == some "created" && p.comment.isSome then
    p.comment.bind RawComment.body
  else
    none

/-! ## Trigger resolution

`processEvent` from `src/github/event.ts` (lines 55-137) and
`extractLabels` from the same file (lines 31-48).  Reading the payload
from disk (`loadEventPayload`) is I/O; the pure resolver takes the parsed
payload as an argument. -/

/-- The two agent kinds. -/
inductive AgentType where
  | claude
  | codex
deriving DecidableEq, Repr

/-- A JavaScript runtime exception raised by the embedded code. -/
inductive JsError where
  | typeError
deriving DecidableEq, Repr

instance {ε α : Type} [DecidableEq ε] [DecidableEq α] :
    DecidableEq (Except ε α) := fun x y =>
  match x, y with
  | Except.error a, Except.error b =>
    if h : a = b then Decidable.isTrue (h ▸ rfl)
    else Decidable.isFalse (fun hc => h (Except.error.inj hc))
  | Except.error _, Except.ok _ => Decidable.isFalse (fun hc => Except.noConfusion hc)
  | Except.ok _, Except.error _ => Decidable.isFalse (fun hc => Except.noConfusion hc)
  | Except.ok a, Except.ok b =>
    if h : a = b then Decidable.isTrue (h ▸ rfl)
    else Decidable.isFalse (fun hc => h (Except.ok.inj hc))

/-- The slice of `ActionConfig` that trigger resolution reads.
`triggerLabels: string[] | null` is modelled as `Option (List JStr)`:
`none` is the `null` that `getStrArray` returns when the optional
`trigger-labels` input is unset.  `processEvent` dereferences
`config.triggerLabels.length` without a null guard, so the `null` case
reaches a JavaScript `TypeError` (see `processEventPure`).
`triggerType: 'claude' | 'codex' | null` is an `Option`. -/
structure TriggerConfig where
  triggerLabels : Option (List JStr)
  triggerType : Option AgentType
deriving DecidableEq, Repr

/-- `extractLabels(eventPayload)` from `src/github/event.ts:31-48`:
issue labels, else pull-request labels, else the single label of a label
event, else `[]`; every name is lowercased. -/
def extractLabels (p : RawPayload) : List JStr :=
  match p.issue with
  | some i =>
    match i.labels with
    | some ls => ls.map jsToLower
    | none => extractLabelsPR p
  | none => extractLabelsPR p
where
  /-- The pull-request and label-event fallbacks of `extractLabels`. -/
  extractLabelsPR (p : RawPayload) : List JStr :=
    match p.pull_request with
    | some pr =>
      match pr.labels with
      | some ls => ls.map jsToLower
      | none => extractLabelsLabel p
    | none => extractLabelsLabel p
  /-- The label-event fallback of `extractLabels`. -/
  extractLabelsLabel (p : RawPayload) : List JStr :=
    match p.label with
    | some name => [jsToLower name]
    | none => []

/-- The label loop of `processEvent` (`src/github/event.ts:88-103`):
the first label equal to `claude` or `codex` selects that agent; the
first label contained in the configured trigger-label list selects
`config.triggerType || 'claude'`.  The loop only runs under the guard
that established the list non-null, so it receives the unwrapped list. -/
def resolveLabel (triggerLabels : List JStr) (triggerType : Option AgentType) :
    List JStr → Option AgentType
  | [] => none
  | l :: rest =>
    if l = jstr "claude" then some AgentType.claude
    else if l = jstr "codex" then some AgentType.codex
    else if triggerLabels.contains l then some (triggerType.getD AgentType.claude)
    else resolveLabel triggerLabels triggerType rest

/-- Default instruction synthesis for label triggers
(`src/github/event.ts:106-121`). -/
def defaultLabelPrompt (p : RawPayload) : JStr :=
  if optTruthy (p.issue.bind RawIssue.title) then
    jstr "Review and address this issue: " ++ (p.issue.bind RawIssue.title).getD []
      ++ jstr "\n\n"
      ++ (if optTruthy (p.issue.bind RawIssue.body) then (p.issue.bind RawIssue.body).getD [] else [])
  else if optTruthy (p.pull_request.bind RawPR.title) then
    jstr "Review this pull request: " ++ (p.pull_request.bind RawPR.title).getD []
      ++ jstr "\n\n"
      ++ (if optTruthy (p.pull_request.bind RawPR.body) then (p.pull_request.bind RawPR.body).getD [] else [])
  else
    jstr "Please review the changes and provide feedback."

/-- The result of trigger resolution (`ProcessedEvent`). -/
structure ProcessedEvent where
  type : AgentType
  agentEvent : EventKind
  userPrompt : JStr
deriving DecidableEq, Repr

/-- Step 1 of `processEvent` (`src/github/event.ts:69-80`): explicit
`/claude` / `/codex` command detection in the extracted text. -/
def commandStep (text : Option JStr) : Option AgentType × JStr :=
  match text with
  | some t =>
    if t.isEmpty then (none, [])
    else if jsStartsWith t (jstr "/claude") then
      (some AgentType.claude, jsTrim (jsRemoveFirst t (jstr "/claude")))
    else if jsStartsWith t (jstr "/codex") then
      (some AgentType.codex, jsTrim (jsRemoveFirst t (jstr "/codex")))
    else (none, [])
  | none => (none, [])

/-- `processEvent(config)` from `src/github/event.ts:55-137`, with the
parsed payload passed explicitly.  Returns `ok none` for unsupported
events, for events with no matching command or label, and for events
whose resolved instruction is empty.  The guard at line 83 is
`!type && config.triggerLabels.length > 0`: JavaScript evaluates the
conjuncts left to right, so `config.triggerLabels.length` is reached
exactly when no command matched, and it throws a `TypeError` when
`triggerLabels` is `null` — modelled by the `Except.error` branch.  A
throw aborts before the final null-checks, which otherwise run on the
outcome of the optional label block. -/
def processEventPure (config : TriggerConfig) (p : RawPayload) :
    Except JsError (Option ProcessedEvent) :=
  match getEventType p with
  | none => Except.ok none
  | some agentEvent =>
    let step1 := commandStep (extractText p)
    let step2E : Except JsError (Option AgentType × JStr) :=
      if step1.1.isNone then
        match config.triggerLabels with
        | none => Except.error JsError.typeError
        | some labels =>
          Except.ok
            (if decide (labels.length > 0) then
              let ty := resolveLabel labels config.triggerType (extractLabels p)
              let prompt := if ty.isSome && step1.2.isEmpty then defaultLabelPrompt p
                else step1.2
              (ty, prompt)
            else step1)
      else Except.ok step1
    match step2E with
    | Except.error e => Except.error e
    | Except.ok (none, _) => Except.ok none
    | Except.ok (some ty, prompt) =>
      if prompt.isEmpty then Except.ok none
      else Except.ok (some ⟨ty, agentEvent, prompt⟩)

/-! ## Token estimation and truncation

`estimateTokens` and `truncateToTokenLimit` from
`src/utils/tokenEstimator.ts` (lines 12-20 and 39-67).  Numbers are
modelled as `Int` where subtraction may go negative.  The single
floating-point comparison `cutPoint > maxChars * 0.7` is modelled by the
exact rational comparison `10 * cutPoint > 7 * maxChars`: for small
operands the double product rounds to the exact rational value (e.g.
`10 * 0.7` is exactly `7.0`), so the two tests agree; at magnitudes
where the product rounds below the exact value the float test can admit
the boundary, which only swaps which of the two truncation cut branches
is taken. -/

/-- `estimateTokens(text)`: `ceil(length / 4)`, `0` for the empty string. -/
def estimateTokens (text : JStr) : Nat :=
  if text.isEmpty then 0 else (text.length + 3) / 4

/-- Last index of character `c` in `s` (`String.prototype.lastIndexOf`),
`-1` if absent. -/
def jsLastIndexOf (s : JStr) (c : Char) : Int :=
  match s.reverse.indexOf? c with
  | some i => (s.length : Int) - 1 - i
  | none => -1

/-- `truncateToTokenLimit(text, maxTokens)` from
`src/utils/tokenEstimator.ts:39-67`. -/
def truncateToTokenLimit (text : JStr) (maxTokens : Int) : JStr :=
  if text.isEmpty || maxTokens ≤ 0 then []
  else if (estimateTokens text : Int) ≤ maxTokens then text
  else
    let maxChars := ((7 * maxTokens) / 2).toNat
    if text.length ≤ maxChars then text
    else
      let truncated := text.take maxChars
      let lastPeriod := jsLastIndexOf truncated '.'
      let lastNewline := jsLastIndexOf truncated '\n'
      let cutPoint := max lastPeriod lastNewline
      if 10 * cutPoint > 7 * (maxChars : Int) then
        text.take (cutPoint.toNat + 1) ++ jstr "\n\n[Content truncated to fit token limit]"
      else
        truncated ++ jstr "\n\n[Content truncated to fit token limit]"

/-! ## Prompt assembly

`generatePrompt` from `src/github/generatePrompt.ts` (lines 15-108).
The API fetches (`getContentsData`, `getChangedFiles`) are I/O; the pure
assembly takes their results (`contents`, `prFiles`) as arguments.  The
changed-file list is only fetched for the two PR-scoped event kinds, so
the pure function forces it empty otherwise. -/

/-- The fetched conversation data (`GithubContentsData`). -/
structure ContentsData where
  content : ContentItem
  comments : List ContentItem
deriving DecidableEq, Repr

/-- The configuration slice read by `generatePrompt`
(all fields optional; `enableContextTruncation` is a truthy flag). -/
structure PromptConfig where
  maxHistoryComments : Option Int
  maxChangedFilesInContext : Option Int
  enableContextTruncation : Bool
  maxContextTokens : Option Int
deriving DecidableEq, Repr

/-- The review-comment anchor data used for the `[Context]` line
(`event.github.comment.path` / `.line`). -/
structure ReviewAnchor where
  path : JStr
  line : Option Int
deriving DecidableEq, Repr

/-- The event argument of `generatePrompt`: the classified kind plus the
review anchor for review-comment events. -/
inductive PromptEvent where
  | issuesOpened
  | issueCommentCreated
  | pullRequestCommentCreated
  | pullRequestReviewCommentCreated (anchor : ReviewAnchor)
deriving DecidableEq, Repr

/-- The `[Context]` line for review comments
(`src/github/generatePrompt.ts:37-43`). -/
def contextInfoOf : PromptEvent → JStr
  | PromptEvent.pullRequestReviewCommentCreated anchor =>
    jstr "Comment on file: " ++ anchor.path
      ++ (match anchor.line with
          | some l => if l ≠ 0 then jstr ", line: " ++ jstr (toString l) else []
          | none => [])
  | _ => []

/-- The optional-section block `[History] / [Context] / [Changed Files]`
(`src/github/generatePrompt.ts:63-72` and the identical rebuild at
lines 87-96). -/
def sectionBlock (history contextInfo : JStr) (files : List JStr) : JStr :=
  (if !history.isEmpty then jstr "[History]\n" ++ history ++ jstr "\n\n" else [])
  ++ (if !contextInfo.isEmpty then jstr "[Context]\n" ++ contextInfo ++ jstr "\n\n" else [])
  ++ (if files.length > 0 then jstr "[Changed Files]\n" ++ jsJoinNl files ++ jstr "\n\n" else [])

/-- `generatePrompt` (`src/github/generatePrompt.ts:15-108`) with the
fetched data passed explicitly. -/
def generatePromptPure (event : PromptEvent) (contents : ContentsData)
    (prFiles : List JStr) (userPrompt : JStr) (config : PromptConfig) : JStr :=
  match event with
  | PromptEvent.issuesOpened => userPrompt
  | _ =>
    let prFiles0 : List JStr :=
      match event with
      | PromptEvent.pullRequestCommentCreated => prFiles
      | PromptEvent.pullRequestReviewCommentCreated _ => prFiles
      | _ => []
    let contextInfo := contextInfoOf event
    let commentsToProcess :=
      match config.maxHistoryComments with
      | some n => if n ≠ 0 && n > 0 then contents.comments.drop (contents.comments.length - n.toNat) else contents.comments
      | none => contents.comments
    let historyPropmt := commentsToProcess.foldl
      (fun acc c => acc ++ genContentsString c userPrompt)
      (genContentsString contents.content userPrompt)
    let filesToInclude :=
      match config.maxChangedFilesInContext with
      | some n => if n ≠ 0 && n > 0 then prFiles0.take n.toNat else prFiles0
      | none => prFiles0
    let sections := sectionBlock historyPropmt contextInfo filesToInclude
    let prompt0 := if !sections.isEmpty then sections ++ jstr "---\n\n" ++ userPrompt else userPrompt
    match config.maxContextTokens with
    | some m =>
      if config.enableContextTruncation && m ≠ 0 && m > 0
          && (estimateTokens prompt0 : Int) > m then
        let maxCtx : Int := m - (estimateTokens userPrompt : Int) - 50
        if !sections.isEmpty then
          truncateToTokenLimit sections maxCtx ++ jstr "---\n\n" ++ userPrompt
        else userPrompt
      else prompt0
    | none => prompt0

/-! ## Layered ignore matcher

The rule layering of `captureFileState`
(`src/file/captureFileState.ts:15-49`, `src/github.ts:1041-1098`): one
`ignore()` matcher instance receives, in order, the hard-coded infra
excludes, the caller's `excludePatterns`, and the repository's
`.gitignore` content.  The `ignore` npm package implements the
`.gitignore` rule grammar: rules are kept in insertion order, a rule may
be negated (a leading `!`, the "un-ignore" form of the grammar), and the
last matching rule decides whether a path is ignored.  Glob matching of
an individual pattern is abstracted as a Boolean predicate on paths. -/

/-- One parsed ignore rule: a negation flag and the pattern's match
predicate. -/
structure IgnoreRule where
  negated : Bool
  matchesPath : JStr → Bool

/-- Git-style rule evaluation (the `ignore` package's `ignores`): the
last matching rule decides; an unmatched path is not ignored. -/
def ignoredBy (rules : List IgnoreRule) (path : JStr) : Bool :=
  (rules.foldl (fun acc r => if r.matchesPath path then some (!r.negated) else acc)
    (none : Option Bool)).getD false

/-- The layer order built by `captureFileState`: hard-coded infra
excludes, then the caller's `excludePatterns`, then the `.gitignore`
content. -/
def captureRules (hard user gitignore : List IgnoreRule) : List IgnoreRule :=
  hard ++ user ++ gitignore

/-- A path survives filtering when the combined matcher does not ignore
it (`ig.filter`). -/
def surviving (rules : List IgnoreRule) (path : JStr) : Bool :=
  !ignoredBy rules path

/-! ## Claim-language shapes for classification -/

/-- Shape 1 of the claim: action `opened` with a marker-free issue. -/
def ShapeIssueOpened (p : RawPayload) : Prop :=
  p.action = some "opened" ∧ ∃ i, p.issue = some i ∧ i.pull_request = false

/-- Shape 2 of the claim: action `created`, marker-free issue, comment. -/
def ShapeIssueComment (p : RawPayload) : Prop :=
  p.action = some "created" ∧ (∃ i, p.issue = some i ∧ i.pull_request = false)
    ∧ p.comment.isSome

/-- Shape 3 of the claim: action `created`, pull-request-marked issue,
comment. -/
def ShapePRComment (p : RawPayload) : Prop :=
  p.action = some "created" ∧ (∃ i, p.issue = some i ∧ i.pull_request = true)
    ∧ p.comment.isSome

/-- Shape 4 of the claim: action `created`, a `pull_request` object, and
a comment carrying a (non-empty) file path. -/
def ShapeReviewComment (p : RawPayload) : Prop :=
  p.action = some "created" ∧ p.pull_request.isSome
    ∧ ∃ c s, p.comment = some c ∧ c.path = some s ∧ s ≠ []

theorem issuePlain_iff (p : RawPayload) :
    issuePlain p = true ↔ ∃ i, p.issue = some i ∧ i.pull_request = false := by
  unfold issuePlain
  cases p.issue <;> simp

theorem issueMarked_iff (p : RawPayload) :
    issueMarked p = true ↔ ∃ i, p.issue = some i ∧ i.pull_request = true := by
  unfold issueMarked
  cases p.issue <;> simp

theorem commentPathTruthy_iff (p : RawPayload) :
    commentPathTruthy p = true ↔ ∃ c s, p.comment = some c ∧ c.path = some s ∧ s ≠ [] := by
  unfold commentPathTruthy optTruthy
  cases p.comment with
  | none => simp
  | some c =>
    cases h : c.path <;> simp [h, List.isEmpty_iff]



theorem getEventType_eq_opened (p : RawPayload) :
    getEventType p = some EventKind.issuesOpened ↔
      (p.action == some "opened" && issuePlain p) = true := by
  unfold getEventType
  split_ifs with h1 h2 h3 h4 <;>
    simp only [Option.some.injEq, reduceCtorEq, eq_self_iff_true, true_iff,
      iff_true, false_iff, iff_false] <;>
    tauto

theorem getEventType_eq_issueComment (p : RawPayload) :
    getEventType p = some EventKind.issueCommentCreated ↔
      ((p.action == some "created" && issuePlain p && p.comment.isSome) = true
        ∧ ¬ (p.action == some "opened" && issuePlain p) = true) := by
  unfold getEventType
  split_ifs with h1 h2 h3 h4 <;>
    simp only [Option.some.injEq, reduceCtorEq, eq_self_iff_true, true_iff,
      iff_true, false_iff, iff_false] <;>
    tauto

theorem getEventType_eq_prComment (p : RawPayload) :
    getEventType p = some EventKind.pullRequestCommentCreated ↔
      ((p.action == some "created" && issueMarked p && p.comment.isSome) = true
        ∧ ¬ (p.action == some "opened" && issuePlain p) = true
        ∧ ¬ (p.action == some "created" && issuePlain p && p.comment.isSome) = true) := by
  unfold getEventType
  split_ifs with h1 h2 h3 h4 <;>
    simp only [Option.some.injEq, reduceCtorEq, eq_self_iff_true, true_iff,
      iff_true, false_iff, iff_false] <;>
    tauto

theorem getEventType_eq_reviewComment (p : RawPayload) :
    getEventType p = some EventKind.pullRequestReviewCommentCreated ↔
      ((p.action == some "created" && p.pull_request.isSome && p.comment.isSome
          && commentPathTruthy p) = true
        ∧ ¬ (p.action == some "opened" && issuePlain p) = true
        ∧ ¬ (p.action == some "created" && issuePlain p && p.comment.isSome) = true
        ∧ ¬ (p.action == some "created" && issueMarked p && p.comment.isSome) = true) := by
  unfold getEventType
  split_ifs with h1 h2 h3 h4 <;>
    simp only [Option.some.injEq, reduceCtorEq, eq_self_iff_true, true_iff,
      iff_true, false_iff, iff_false] <;>
    tauto

theorem getEventType_eq_noMatch (p : RawPayload) :
    getEventType p = none ↔
      (¬ (p.action == some "opened" && issuePlain p) = true
        ∧ ¬ (p.action == some "created" && issuePlain p && p.comment.isSome) = true
        ∧ ¬ (p.action == some "created" && issueMarked p && p.comment.isSome) = true
        ∧ ¬ (p.action == some "created" && p.pull_request.isSome && p.comment.isSome
          && commentPathTruthy p) = true) := by
  unfold getEventType
  split_ifs with h1 h2 h3 h4 <;>
    simp only [Option.some.injEq, reduceCtorEq, eq_self_iff_true, true_iff,
      iff_true, false_iff, iff_false] <;>
    tauto

/-- C2 — Classification totality and precedence: `getEventType` returns
`issuesOpened` exactly on shape 1; `issueCommentCreated` exactly on
shape 2 when shape 1 does not hold; `pullRequestCommentCreated` exactly
on shape 3 when shapes 1-2 do not hold; `pullRequestReviewCommentCreated`
exactly on shape 4 when shapes 1-3 do not hold; `none` ("Unsupported")
exactly when no shape holds; and a payload matching both shape 3 and
shape 4 is classified `pullRequestCommentCreated` (first match wins). -/
theorem c2_getEventType_classification (p : RawPayload) :
    (getEventType p = some EventKind.issuesOpened ↔ ShapeIssueOpened p)
    ∧ (getEventType p = some EventKind.issueCommentCreated ↔
        (¬ ShapeIssueOpened p ∧ ShapeIssueComment p))
    ∧ (getEventType p = some EventKind.pullRequestCommentCreated ↔
        (¬ ShapeIssueOpened p ∧ ¬ ShapeIssueComment p ∧ ShapePRComment p))
    ∧ (getEventType p = some EventKind.pullRequestReviewCommentCreated ↔
        (¬ ShapeIssueOpened p ∧ ¬ ShapeIssueComment p ∧ ¬ ShapePRComment p
          ∧ ShapeReviewComment p))
    ∧ (getEventType p = none ↔
        (¬ ShapeIssueOpened p ∧ ¬ ShapeIssueComment p ∧ ¬ ShapePRComment p
          ∧ ¬ ShapeReviewComment p))
    ∧ (ShapePRComment p → ShapeReviewComment p →
        getEventType p = some EventKind.pullRequestCommentCreated) := by
  have e1 : (p.action == some "opened" && issuePlain p) = true ↔ ShapeIssueOpened p := by
    rw [Bool.and_eq_true, beq_iff_eq, issuePlain_iff]; exact Iff.rfl
  have e2 : (p.action == some "created" && issuePlain p && p.comment.isSome) = true ↔
      ShapeIssueComment p := by
    rw [Bool.and_eq_true, Bool.and_eq_true, beq_iff_eq, issuePlain_iff]
    unfold ShapeIssueComment
    tauto
  have e3 : (p.action == some "created" && issueMarked p && p.comment.isSome) = true ↔
      ShapePRComment p := by
    rw [Bool.and_eq_true, Bool.and_eq_true, beq_iff_eq, issueMarked_iff]
    unfold ShapePRComment
    tauto
  have e4 : (p.action == some "created" && p.pull_request.isSome && p.comment.isSome
      && commentPathTruthy p) = true ↔ ShapeReviewComment p := by
    rw [Bool.and_eq_true, Bool.and_eq_true, Bool.and_eq_true, beq_iff_eq,
      commentPathTruthy_iff]
    unfold ShapeReviewComment
    constructor
    · rintro ⟨⟨⟨ha, hpr⟩, _⟩, c, s, hc, hs, hne⟩
      exact ⟨ha, hpr, c, s, hc, hs, hne⟩
    · rintro ⟨ha, hpr, c, s, hc, hs, hne⟩
      exact ⟨⟨⟨ha, hpr⟩, by simp [hc]⟩, c, s, hc, hs, hne⟩
  have hx1 : ShapeIssueOpened p → ¬ ShapePRComment p := by
    rintro ⟨ha, _⟩ ⟨ha', _⟩
    rw [ha] at ha'
    exact absurd (Option.some.inj ha') (by decide)
  have hx4 : ShapeIssueComment p → ¬ ShapePRComment p := by
    rintro ⟨_, ⟨i, hi, hm⟩, _⟩ ⟨_, ⟨i', hi', hm'⟩, _⟩
    rw [hi] at hi'
    cases Option.some.inj hi'
    rw [hm] at hm'
    exact Bool.false_ne_true hm'
  refine ⟨?_, ?_, ?_, ?_, ?_, ?_⟩
  · exact (getEventType_eq_opened p).trans e1
  · rw [getEventType_eq_issueComment p, e1, e2]
    tauto
  · rw [getEventType_eq_prComment p, e1, e2, e3]
    tauto
  · rw [getEventType_eq_reviewComment p, e1, e2, e3, e4]
    tauto
  · rw [getEventType_eq_noMatch p, e1, e2, e3, e4]
  · intro s3 s4
    rw [getEventType_eq_prComment p, e1, e2, e3]
    exact ⟨s3, fun h => hx1 h s3, fun h => hx4 h s3⟩

/-! ## Lemmas about snapshot lookup -/

theorem snapGet_isSome_iff (m : Snapshot) (k : String) :
    (snapGet m k).isSome = true ↔ k ∈ snapKeys m := by
  induction m with
  | nil => simp [snapGet, snapKeys]
  | cons e rest ih =>
    by_cases h : e.1 = k
    · simp [snapGet, snapKeys, h]
    · have h' : k ≠ e.1 := fun hk => h hk.symm
      simp [snapGet, snapKeys, h, h', ih]

theorem snapGet_eq_none_iff (m : Snapshot) (k : String) :
    snapGet m k = none ↔ k ∉ snapKeys m := by
  rw [← snapGet_isSome_iff]
  cases snapGet m k <;> simp

theorem mem_of_snapGet_eq_some {m : Snapshot} {k v : String}
    (h : snapGet m k = some v) : (k, v) ∈ m := by
  induction m with
  | nil => simp [snapGet] at h
  | cons e rest ih =>
    obtain ⟨a, b⟩ := e
    by_cases he : a = k
    · rw [snapGet, if_pos he] at h
      obtain rfl := Option.some.inj h
      subst he
      exact List.mem_cons_self _ _
    · rw [snapGet, if_neg he] at h
      exact List.mem_cons_of_mem _ (ih h)

theorem snapGet_eq_some_of_mem {m : Snapshot} {k v : String}
    (hnd : (snapKeys m).Nodup) (hmem : (k, v) ∈ m) : snapGet m k = some v := by
  induction m with
  | nil => cases hmem
  | cons e rest ih =>
    obtain ⟨a, b⟩ := e
    rw [snapKeys, List.map_cons, List.nodup_cons] at hnd
    rcases List.mem_cons.mp hmem with heq | hrest
    · cases heq
      simp [snapGet]
    · have hk : k ∈ snapKeys rest := List.mem_map_of_mem Prod.fst hrest
      have hak : a ≠ k := fun h => hnd.1 (h ▸ hk)
      rw [snapGet, if_neg hak]
      exact ih hnd.2 hrest

theorem mem_detectChanges_first_iff (before after : Snapshot) (p : String)
    (ha : (snapKeys after).Nodup) :
    p ∈ (after.filter (fun e =>
        match snapGet before e.1 with
        | none => true
        | some originalHash => originalHash = "" || originalHash != e.2)).map Prod.fst ↔
      ∃ v, snapGet after p = some v ∧
        (match snapGet before p with
         | none => true
         | some originalHash => originalHash = "" || originalHash != v) = true := by
  simp only [List.mem_map, List.mem_filter]
  constructor
  · rintro ⟨⟨a, b⟩, ⟨hmem, hpred⟩, rfl⟩
    exact ⟨b, snapGet_eq_some_of_mem ha hmem, hpred⟩
  · rintro ⟨v, hget, hpred⟩
    exact ⟨(p, v), ⟨mem_of_snapGet_eq_some hget, hpred⟩, rfl⟩

theorem mem_detectChanges_second_iff (before after : Snapshot) (p : String) :
    p ∈ (before.map Prod.fst).filter (fun f => (snapGet after f).isNone) ↔
      (p ∈ snapKeys before ∧ snapGet after p = none) := by
  simp [List.mem_filter, Option.isNone_iff_eq_none, snapKeys]

/-- C1 — Diff correctness: a path is in `detectChanges` exactly when it
is present in exactly one of the two snapshots, or present in both with
different digests; and the result has no duplicate paths.  Snapshots are
maps (duplicate-free keys) and digests are hash strings (non-empty, so
the JS falsy check on a looked-up hash coincides with the absence
check). -/
theorem c1_detectChanges_diff (before after : Snapshot) (p : String)
    (hb : (snapKeys before).Nodup) (ha : (snapKeys after).Nodup)
    (hv : ∀ e ∈ before, e.2 ≠ "") :
    (p ∈ detectChangesPure before after ↔
      ((p ∈ snapKeys after ∧ p ∉ snapKeys before)
        ∨ (p ∈ snapKeys before ∧ p ∉ snapKeys after)
        ∨ (∃ d1 d2, snapGet before p = some d1 ∧ snapGet after p = some d2
            ∧ d1 ≠ d2)))
    ∧ (detectChangesPure before after).Nodup := by
  constructor
  · rw [detectChangesPure, List.mem_append, mem_detectChanges_first_iff before after p ha,
      mem_detectChanges_second_iff before after p,
      ← snapGet_isSome_iff after p, ← snapGet_isSome_iff before p]
    rcases hgb : snapGet before p with _ | b0 <;>
      rcases hga : snapGet after p with _ | a0
    · simp [hgb, hga]
    · simp [hgb, hga]
    · simp [hgb, hga]
    · have hb0 : b0 ≠ "" := hv _ (mem_of_snapGet_eq_some hgb)
      simp [hgb, hga, hb0, bne_iff_ne]
  · have n1 : ((after.filter (fun e =>
        match snapGet before e.1 with
        | none => true
        | some originalHash => originalHash = "" || originalHash != e.2)).map Prod.fst).Nodup := by
      exact List.Nodup.sublist (List.Sublist.map Prod.fst (List.filter_sublist after)) ha
    have n2 : ((before.map Prod.fst).filter (fun f => (snapGet after f).isNone)).Nodup :=
      List.Nodup.filter _ hb
    refine List.Nodup.append n1 n2 ?_
    intro x hx1 hx2
    obtain ⟨v, hvx, -⟩ := (mem_detectChanges_first_iff before after x ha).mp hx1
    obtain ⟨-, hnone⟩ := (mem_detectChanges_second_iff before after x).mp hx2
    rw [hvx] at hnone
    cases hnone

/-! ## Lemmas about the JS string model -/

theorem jsStartsWith_iff (s pat : JStr) :
    jsStartsWith s pat = true ↔ ∃ t, pat ++ t = s := by
  rw [jsStartsWith, List.isPrefixOf_iff_prefix]
  exact Iff.rfl

theorem jsIndexOf_eq_zero_of_startsWith {s pat : JStr}
    (h : jsStartsWith s pat = true) : jsIndexOf s pat = 0 := by
  rw [jsStartsWith] at h
  cases s with
  | nil =>
    cases pat with
    | nil => rfl
    | cons c t => simp at h
  | cons c t =>
    rw [jsIndexOf, jsIndexOfAux, if_pos h]

theorem jsRemoveFirst_of_startsWith {s pat : JStr}
    (h : jsStartsWith s pat = true) : jsRemoveFirst s pat = s.drop pat.length := by
  rw [jsRemoveFirst, jsIndexOf_eq_zero_of_startsWith h]
  norm_num

theorem dropWhile_dropWhile (q : Char → Bool) (l : List Char) :
    List.dropWhile q (List.dropWhile q l) = List.dropWhile q l := by
  induction l with
  | nil => simp
  | cons a t ih =>
    by_cases h : q a <;> simp [List.dropWhile_cons, h, ih]

theorem jsTrimEnd_idem (s : JStr) : jsTrimEnd (jsTrimEnd s) = jsTrimEnd s := by
  simp [jsTrimEnd, dropWhile_dropWhile]

theorem jsTrimEnd_append (l1 l2 : JStr) :
    jsTrimEnd (l1 ++ l2) =
      if jsTrimEnd l2 = [] then jsTrimEnd l1 else l1 ++ jsTrimEnd l2 := by
  unfold jsTrimEnd
  rw [List.reverse_append, List.dropWhile_append]
  by_cases h : (l2.reverse.dropWhile jsIsWs) = []
  · simp [h]
  · have h2 : ((l2.reverse.dropWhile jsIsWs).reverse = []) = False := by
      simp [h]
    simp [h, h2, List.reverse_append]

theorem jsTrim_jsTrimEnd (s : JStr) : jsTrim (jsTrimEnd s) = jsTrim s := by
  rw [jsTrim, jsTrim, jsTrimEnd_idem]

theorem jsTrimStart_cons_of_not_ws {c : Char} (t : JStr) (h : jsIsWs c = false) :
    jsTrimStart (c :: t) = c :: t := by
  simp [jsTrimStart, List.dropWhile_cons, h]

theorem genContentsString_claude_eq (item : ContentItem) (userPrompt : JStr)
    (h1 : jsStartsWith (jsTrim item.body) (jstr "/claude") = true)
    (h2 : jsTrim (jsSubstringFrom (jsTrim item.body)
      (jsIndexOf (jsTrim item.body) (jstr "/claude") + (jstr "/claude").length)) = userPrompt) :
    genContentsString item userPrompt = [] := by
  have hne : (jsTrim item.body).isEmpty = false := by
    obtain ⟨t, ht⟩ := (jsStartsWith_iff _ _).mp h1
    rw [← ht]
    rfl
  simp only [genContentsString, hne, h1, h2]
  simp

/-- C8 — Loop prevention: a history item whose body begins with
`/claude` and whose remainder, after stripping the prefix and trimming,
equals the current instruction, contributes the empty string to the
history section, for any instruction and any author. -/
theorem c8_genContentsString_loop_prevention (item : ContentItem) (userPrompt : JStr)
    (hpre : jsStartsWith item.body (jstr "/claude") = true)
    (hrem : jsTrim (item.body.drop (jstr "/claude").length) = userPrompt) :
    genContentsString item userPrompt = [] := by
  obtain ⟨rest, hrest⟩ := (jsStartsWith_iff _ _).mp hpre
  have hdrop : item.body.drop (jstr "/claude").length = rest := by
    rw [← hrest]
    exact List.drop_left _ _
  by_cases h0 : jsTrimEnd rest = []
  · have hbody : jsTrim item.body = jstr "/claude" := by
      rw [← hrest, jsTrim, jsTrimEnd_append, if_pos h0]
      decide
    have hup : userPrompt = [] := by
      rw [← hrem, hdrop, jsTrim, h0]
      rfl
    apply genContentsString_claude_eq
    · rw [hbody]; decide
    · rw [hbody, hup]; decide
  · have hbody : jsTrim item.body = jstr "/claude" ++ jsTrimEnd rest := by
      rw [← hrest, jsTrim, jsTrimEnd_append, if_neg h0]
      exact jsTrimStart_cons_of_not_ws _ (by decide)
    have hb2 : jsTrim rest = userPrompt := by rw [← hrem, hdrop]
    apply genContentsString_claude_eq
    · rw [hbody]
      exact (jsStartsWith_iff _ _).mpr ⟨_, rfl⟩
    · rw [hbody]
      have hidx : jsIndexOf (jstr "/claude" ++ jsTrimEnd rest) (jstr "/claude") = 0 :=
        jsIndexOf_eq_zero_of_startsWith ((jsStartsWith_iff _ _).mpr ⟨_, rfl⟩)
      rw [hidx]
      have hsub : jsSubstringFrom (jstr "/claude" ++ jsTrimEnd rest)
          ((0 : Int) + (jstr "/claude").length) = jsTrimEnd rest := by
        rw [jsSubstringFrom,
          show ((0 : Int) + ((jstr "/claude").length : Int)).toNat = (jstr "/claude").length from by decide]
        exact List.drop_left _ _
      rw [hsub, jsTrim_jsTrimEnd]
      exact hb2

/-- Witness for C8 at a concrete input. -/
theorem c8_witness :
    genContentsString ⟨jstr "/claude fix typo", jstr "alice"⟩ (jstr "fix typo") = [] :=
  c8_genContentsString_loop_prevention ⟨jstr "/claude fix typo", jstr "alice"⟩
    (jstr "fix typo") (by decide) (by decide)

/-- Counterexample for C7: a history item with a non-empty trimmed body,
no `/claude` prefix, and a human author is NOT included verbatim — the
formatter returns the empty string for it. -/
theorem c7_counterexample :
    (jsTrim (jstr "hello") ≠ []
      ∧ jsStartsWith (jsTrim (jstr "hello")) (jstr "/claude") = false
      ∧ jsTrim (jstr "alice") ≠ jstr "github-actions[bot]")
    ∧ genContentsString ⟨jstr "hello", jstr "alice"⟩ (jstr "fix") = []
    ∧ genContentsString ⟨jstr "hello", jstr "alice"⟩ (jstr "fix")
        ≠ jstr "hello" ++ jstr "\n\n" := by
  decide

/-- C7 (amended) — a history item whose trimmed body is non-empty, does
not begin with `/claude`, and whose trimmed author is not
`github-actions[bot]`, contributes the empty string: marker-free human
items are excluded from the history, not included verbatim. -/
theorem c7_amended_human_items_excluded (item : ContentItem) (userPrompt : JStr)
    (h1 : jsTrim item.body ≠ [])
    (h2 : jsStartsWith (jsTrim item.body) (jstr "/claude") = false)
    (h3 : jsTrim item.login ≠ jstr "github-actions[bot]") :
    genContentsString item userPrompt = [] := by
  simp [genContentsString, h1, h2, h3, List.isEmpty_iff]

/-- Witness for the amended C7 at a concrete input. -/
theorem c7_amended_witness :
    genContentsString ⟨jstr "howdy", jstr "bob"⟩ (jstr "task") = [] :=
  c7_amended_human_items_excluded ⟨jstr "howdy", jstr "bob"⟩ (jstr "task")
    (by decide) (by decide) (by decide)

/-- C3 — Instruction preservation under truncation: whenever context
truncation is enabled and `maxContextTokens` is positive but smaller
than the estimated token count of the fully assembled prompt (the
assembly with truncation disabled), the prompt returned by
`generatePrompt` is either exactly the instruction or some (possibly
truncated) optional-section text followed by the `---` separator and the
unmodified instruction — so the literal instruction is always a suffix,
and truncation only ever removes optional-section text.  This covers the
zero-or-negative remaining budget case, where the truncated section text
is empty. -/
theorem c3_instruction_preserved_under_truncation (event : PromptEvent)
    (contents : ContentsData) (prFiles : List JStr) (userPrompt : JStr)
    (config : PromptConfig) (m : Int)
    (henable : config.enableContextTruncation = true)
    (hmax : config.maxContextTokens = some m)
    (hpos : 0 < m)
    (hover : m < (estimateTokens (generatePromptPure event contents prFiles userPrompt
      ⟨config.maxHistoryComments, config.maxChangedFilesInContext, false,
        config.maxContextTokens⟩) : Int)) :
    generatePromptPure event contents prFiles userPrompt config = userPrompt
      ∨ ∃ ctx, generatePromptPure event contents prFiles userPrompt config =
          ctx ++ jstr "---\n\n" ++ userPrompt := by
  cases event <;>
    simp only [generatePromptPure] <;>
    first
      | exact Or.inl trivial
      | ((repeat' split) <;>
          first
            | exact Or.inl trivial
            | exact Or.inl rfl
            | exact Or.inr ⟨_, rfl⟩)

/-- A sample automation-authored history item used by witnesses. -/
def sampleBotItem : ContentItem :=
  ⟨jstr "this is a long bot answer that definitely exceeds the small budget",
    jstr "github-actions[bot]"⟩

/-- A sample prompt configuration with a tiny token budget. -/
def sampleTinyBudget : PromptConfig := ⟨none, none, true, some 5⟩

/-- Witness for C3 at a concrete over-budget input. -/
theorem c3_witness :
    generatePromptPure PromptEvent.issueCommentCreated ⟨sampleBotItem, []⟩ []
        (jstr "fix") sampleTinyBudget = jstr "fix"
      ∨ ∃ ctx, generatePromptPure PromptEvent.issueCommentCreated ⟨sampleBotItem, []⟩ []
          (jstr "fix") sampleTinyBudget = ctx ++ jstr "---\n\n" ++ jstr "fix" :=
  c3_instruction_preserved_under_truncation PromptEvent.issueCommentCreated
    ⟨sampleBotItem, []⟩ [] (jstr "fix") sampleTinyBudget 5 rfl rfl (by decide) (by decide)

/-- The hard-coded `.git` infra exclude, as a parsed rule. -/
def dotGitRule : IgnoreRule := ⟨false, fun p => jsStartsWith p (jstr ".git/")⟩

/-- A caller `excludePatterns` rule excluding `secret.txt`. -/
def secretExcludeRule : IgnoreRule := ⟨false, fun p => decide (p = jstr "secret.txt")⟩

/-- A `.gitignore` un-ignore rule `!secret.txt`. -/
def secretUnignoreRule : IgnoreRule := ⟨true, fun p => decide (p = jstr "secret.txt")⟩

/-- Counterexample for C9: `secret.txt` is excluded by the caller's
`excludePatterns` layer, but a later `.gitignore` layer containing the
un-ignore rule `!secret.txt` re-includes it — the layering is not
additive-only. -/
theorem c9_counterexample :
    ignoredBy (captureRules [dotGitRule] [secretExcludeRule] []) (jstr "secret.txt") = true
    ∧ ignoredBy (captureRules [dotGitRule] [secretExcludeRule] [secretUnignoreRule])
        (jstr "secret.txt") = false := by
  constructor <;> rfl

theorem foldl_ignore_true (path : JStr) (extra : List IgnoreRule)
    (hne : ∀ r ∈ extra, r.negated = false) :
    List.foldl (fun acc r => if r.matchesPath path then some (!r.negated) else acc)
      (some true) extra = some true := by
  induction extra with
  | nil => rfl
  | cons r rs ih =>
    rw [List.foldl_cons]
    have hr : r.negated = false := hne r (List.mem_cons_self r rs)
    have hstep : (if r.matchesPath path then some (!r.negated) else some true)
        = some true := by
      rw [hr]
      split <;> rfl
    rw [hstep]
    exact ih (fun x hx => hne x (List.mem_cons_of_mem r hx))

theorem ignoredBy_mono (rules extra : List IgnoreRule) (path : JStr)
    (hne : ∀ r ∈ extra, r.negated = false)
    (hig : ignoredBy rules path = true) :
    ignoredBy (rules ++ extra) path = true := by
  unfold ignoredBy at hig ⊢
  rw [List.foldl_append]
  have hacc : List.foldl
      (fun acc r => if r.matchesPath path then some (!r.negated) else acc)
      none rules = some true := by
    rcases h : List.foldl
        (fun acc r => if r.matchesPath path then some (!r.negated) else acc)
        none rules with _ | b
    · rw [h] at hig
      simp at hig
    · rw [h] at hig
      cases b
      · simp at hig
      · exact h
  rw [hacc, foldl_ignore_true path extra hne]
  rfl

/-- C9 (amended) — the layered matcher is additive-only provided the
later layers contain no un-ignore (`!`) rules: under that proviso a path
excluded by the hard-coded layer, or by the hard-coded plus
`excludePatterns` layers, remains excluded by the full three-layer
matcher.  (Without the proviso this fails: see the counterexample.) -/
theorem c9_amended_additive_without_negation (hard user gitignore : List IgnoreRule)
    (path : JStr)
    (hu : ∀ r ∈ user, r.negated = false)
    (hg : ∀ r ∈ gitignore, r.negated = false) :
    (ignoredBy (captureRules hard [] []) path = true →
      ignoredBy (captureRules hard user gitignore) path = true)
    ∧ (ignoredBy (captureRules hard user []) path = true →
      ignoredBy (captureRules hard user gitignore) path = true) := by
  constructor
  · intro h
    have h' : ignoredBy hard path = true := by simpa [captureRules] using h
    have hall : ∀ r ∈ user ++ gitignore, r.negated = false := by
      intro r hr
      rcases List.mem_append.mp hr with h1 | h2
      exacts [hu r h1, hg r h2]
    have hres := ignoredBy_mono hard (user ++ gitignore) path hall h'
    simpa [captureRules, List.append_assoc] using hres
  · intro h
    have h' : ignoredBy (hard ++ user) path = true := by simpa [captureRules] using h
    have hres := ignoredBy_mono (hard ++ user) gitignore path hg h'
    simpa [captureRules, List.append_assoc] using hres

/-- Witness for the amended C9 at concrete layers. -/
theorem c9_amended_witness :
    (ignoredBy (captureRules [dotGitRule] [] []) (jstr "secret.txt") = true →
      ignoredBy (captureRules [dotGitRule] [secretExcludeRule] []) (jstr "secret.txt") = true)
    ∧ (ignoredBy (captureRules [dotGitRule] [secretExcludeRule] []) (jstr "secret.txt") = true →
      ignoredBy (captureRules [dotGitRule] [secretExcludeRule] []) (jstr "secret.txt") = true) :=
  c9_amended_additive_without_negation [dotGitRule] [secretExcludeRule] []
    (jstr "secret.txt")
    (fun r hr => by rw [List.mem_singleton.mp hr]; rfl)
    (fun r hr => absurd hr (List.not_mem_nil r))

/-! ## Lemmas about trigger resolution -/

theorem isEmpty_false_of_ne_nil {l : JStr} (h : l ≠ []) : l.isEmpty = false := by
  cases l with
  | nil => exact absurd rfl h
  | cons c t => rfl

theorem commandStep_none (text : Option JStr)
    (h : ∀ t, text = some t → jsStartsWith t (jstr "/claude") = false
      ∧ jsStartsWith t (jstr "/codex") = false) :
    commandStep text = (none, []) := by
  cases text with
  | none => rfl
  | some t =>
    obtain ⟨h1, h2⟩ := h t rfl
    simp [commandStep, h1, h2]

theorem processEventPure_result (config : TriggerConfig) (p : RawPayload) :
    processEventPure config p = Except.error JsError.typeError
      ∨ processEventPure config p = Except.ok none
      ∨ ∃ r, processEventPure config p = Except.ok (some r) ∧ r.userPrompt ≠ [] := by
  unfold processEventPure
  cases hev : getEventType p
  · exact Or.inr (Or.inl rfl)
  · dsimp only
    repeat' split
    all_goals
      first
        | exact Or.inl rfl
        | exact Or.inr (Or.inl rfl)
        | (rename_i hne
           refine Or.inr (Or.inr ⟨_, rfl, ?_⟩)
           intro hnil
           exact hne (by
             simp only [List.isEmpty_iff]
             exact hnil))

theorem resolveLabel_none (triggerLabels : List JStr) (triggerType : Option AgentType) :
    ∀ ls : List JStr,
      (∀ l ∈ ls, l ≠ jstr "claude" ∧ l ≠ jstr "codex" ∧ l ∉ triggerLabels) →
      resolveLabel triggerLabels triggerType ls = none := by
  intro ls
  induction ls with
  | nil => intro _; rfl
  | cons l rest ih =>
    intro h
    obtain ⟨h1, h2, h3⟩ := h l (List.mem_cons_self l rest)
    have hc : (triggerLabels.contains l = true) = False := by
      simp only [eq_iff_iff, iff_false]
      intro hq
      exact h3 (List.elem_iff.mp hq)
    simp only [resolveLabel, if_neg h1, if_neg h2, hc, if_false]
    exact ih (fun x hx => h x (List.mem_cons_of_mem l hx))

theorem processEventPure_no_trigger (config : TriggerConfig) (p : RawPayload)
    (labels : List JStr)
    (hcmd : commandStep (extractText p) = (none, []))
    (hcfg : config.triggerLabels = some labels)
    (hres : labels = [] ∨ resolveLabel labels config.triggerType (extractLabels p) = none) :
    processEventPure config p = Except.ok none := by
  unfold processEventPure
  cases hev : getEventType p
  · rfl
  · dsimp only
    rw [hcmd, hcfg]
    rcases hres with h | h
    · simp [h]
    · simp [h]

theorem processEventPure_null_labels_throws (tt : Option AgentType) (p : RawPayload)
    (ev : EventKind)
    (hev : getEventType p = some ev)
    (hcmd : commandStep (extractText p) = (none, [])) :
    processEventPure ⟨none, tt⟩ p = Except.error JsError.typeError := by
  unfold processEventPure
  rw [hev]
  dsimp only
  rw [hcmd]
  rfl

theorem processEventPure_label_trigger (config : TriggerConfig) (p : RawPayload)
    (ev : EventKind) (ty : AgentType) (labels : List JStr)
    (hev : getEventType p = some ev)
    (hcmd : commandStep (extractText p) = (none, []))
    (hcfg : config.triggerLabels = some labels)
    (hlen : labels ≠ [])
    (hres : resolveLabel labels config.triggerType (extractLabels p) = some ty)
    (hprompt : defaultLabelPrompt p ≠ []) :
    processEventPure config p = Except.ok (some ⟨ty, ev, defaultLabelPrompt p⟩) := by
  have hlen' : decide (labels.length > 0) = true := by
    simp [List.length_pos, hlen]
  have hpe : (defaultLabelPrompt p).isEmpty = false := isEmpty_false_of_ne_nil hprompt
  unfold processEventPure
  rw [hev]
  dsimp only
  rw [hcmd, hcfg]
  simp [hlen', hres, hpe]

theorem processEventPure_claude_command (config : TriggerConfig) (p : RawPayload)
    (ev : EventKind) (t : JStr)
    (hev : getEventType p = some ev)
    (ht : extractText p = some t)
    (hpre : jsStartsWith t (jstr "/claude") = true)
    (hne : jsTrim (jsRemoveFirst t (jstr "/claude")) ≠ []) :
    processEventPure config p =
      Except.ok (some ⟨AgentType.claude, ev, jsTrim (jsRemoveFirst t (jstr "/claude"))⟩) := by
  have hte : t.isEmpty = false := by
    obtain ⟨r, hr⟩ := (jsStartsWith_iff _ _).mp hpre
    rw [← hr]
    rfl
  have hcs : commandStep (extractText p) =
      (some AgentType.claude, jsTrim (jsRemoveFirst t (jstr "/claude"))) := by
    rw [ht]
    simp [commandStep, hte, hpre]
  have hpe : (jsTrim (jsRemoveFirst t (jstr "/claude"))).isEmpty = false :=
    isEmpty_false_of_ne_nil hne
  unfold processEventPure
  rw [hev]
  dsimp only
  rw [hcs]
  simp [hpe]

/-! ## Concrete payloads and configurations used by witnesses and
counterexamples -/

/-- A configuration whose trigger-label list is configured but empty. -/
def emptyLabelConfig : TriggerConfig := ⟨some [], none⟩

/-- A configuration with one custom trigger label. -/
def agentLabelConfig : TriggerConfig := ⟨some [jstr "agent"], none⟩

/-- A configuration whose trigger-label list is `null` (the
`trigger-labels` input unset, `getStrArray` returning `null`). -/
def nullLabelConfig : TriggerConfig := ⟨none, none⟩

/-- An issue-comment payload whose comment body is exactly `/claude`. -/
def bareClaudePayload : RawPayload :=
  ⟨some "created", some ⟨some (jstr "T"), some (jstr "B"), false, none⟩,
    some ⟨some (jstr "/claude"), none⟩, none, none⟩

/-- An issue-comment payload with comment body
`/claude please fix the typo` and no labels. -/
def typoPayload : RawPayload :=
  ⟨some "created", some ⟨some (jstr "T"), some (jstr "B"), false, none⟩,
    some ⟨some (jstr "/claude please fix the typo"), none⟩, none, none⟩

/-- The issue of the label-trigger scenario. -/
def codexIssue : RawIssue :=
  ⟨some (jstr "Add logging"), some (jstr "need structured logs"), false,
    some [jstr "codex"]⟩

/-- An issue-opened payload carrying the `codex` label. -/
def codexLabelPayload : RawPayload :=
  ⟨some "opened", some codexIssue, none, none, none⟩

/-- An issue-comment payload with a plain body and a non-trigger label. -/
def noTriggerPayload : RawPayload :=
  ⟨some "created", some ⟨some (jstr "T"), some (jstr "B"), false, some [jstr "misc"]⟩,
    some ⟨some (jstr "hello"), none⟩, none, none⟩

/-- Counterexample for C4: the comment body `/claude` starts with the
prefix, but `processEvent` returns `null` rather than selecting agent
`claude` with the (empty) stripped instruction. -/
theorem c4_counterexample :
    extractText bareClaudePayload = some (jstr "/claude")
    ∧ jsStartsWith (jstr "/claude") (jstr "/claude") = true
    ∧ processEventPure emptyLabelConfig bareClaudePayload = Except.ok none := by
  decide

/-- C4 (amended) — for every event whose extracted text starts with
`/claude` and whose remainder after stripping the prefix and trimming is
non-empty, trigger resolution selects agent `claude` with that remainder
as the instruction (and throws nothing, for every configuration: the
label guard short-circuits once a command matched). -/
theorem c4_amended_claude_command (config : TriggerConfig) (p : RawPayload)
    (ev : EventKind) (t : JStr)
    (hev : getEventType p = some ev)
    (ht : extractText p = some t)
    (hpre : jsStartsWith t (jstr "/claude") = true)
    (hne : jsTrim (t.drop (jstr "/claude").length) ≠ []) :
    processEventPure config p =
      Except.ok (some ⟨AgentType.claude, ev, jsTrim (t.drop (jstr "/claude").length)⟩) := by
  have hrm : jsRemoveFirst t (jstr "/claude") = t.drop (jstr "/claude").length :=
    jsRemoveFirst_of_startsWith hpre
  rw [← hrm] at hne ⊢
  exact processEventPure_claude_command config p ev t hev ht hpre hne

/-- Witness for the amended C4 at the claim's example input. -/
theorem c4_witness :
    processEventPure emptyLabelConfig typoPayload =
      Except.ok (some ⟨AgentType.claude, EventKind.issueCommentCreated,
        jstr "please fix the typo"⟩) := by
  have h := c4_amended_claude_command emptyLabelConfig typoPayload
    EventKind.issueCommentCreated (jstr "/claude please fix the typo")
    (by decide) (by decide) (by decide) (by decide)
  rw [h]
  decide

/-- Counterexample for C6: with a `null` trigger-label list (the
`trigger-labels` input unset) and a supported event whose text matches
no command prefix, `processEvent` does not return `null` — the guard
`config.triggerLabels.length > 0` dereferences `null` and throws a
`TypeError`. -/
theorem c6_counterexample :
    extractText noTriggerPayload = some (jstr "hello")
    ∧ jsStartsWith (jstr "hello") (jstr "/claude") = false
    ∧ jsStartsWith (jstr "hello") (jstr "/codex") = false
    ∧ processEventPure nullLabelConfig noTriggerPayload = Except.error JsError.typeError
    ∧ processEventPure nullLabelConfig noTriggerPayload ≠ Except.ok none := by
  decide

/-- C6 (amended) — provided the configured trigger-label list is
non-null: every non-error, non-null result of `processEvent` has a
non-empty instruction; an event matching neither a command prefix nor a
trigger label resolves to `null` (not an error); and the concrete
comment body `/claude` (empty remainder) resolves to `null`.  When the
list is null, a supported command-free event instead throws a
`TypeError` at the label guard. -/
theorem c6_no_trigger_on_empty_instruction :
    (∀ (config : TriggerConfig) (p : RawPayload) (r : ProcessedEvent),
      processEventPure config p = Except.ok (some r) → r.userPrompt ≠ [])
    ∧ (∀ (config : TriggerConfig) (p : RawPayload) (labels : List JStr),
        config.triggerLabels = some labels →
        (∀ t, extractText p = some t → jsStartsWith t (jstr "/claude") = false
          ∧ jsStartsWith t (jstr "/codex") = false) →
        (∀ l ∈ extractLabels p, l ≠ jstr "claude" ∧ l ≠ jstr "codex"
          ∧ l ∉ labels) →
        processEventPure config p = Except.ok none)
    ∧ (∀ (tt : Option AgentType) (p : RawPayload) (ev : EventKind),
        getEventType p = some ev →
        (∀ t, extractText p = some t → jsStartsWith t (jstr "/claude") = false
          ∧ jsStartsWith t (jstr "/codex") = false) →
        processEventPure ⟨none, tt⟩ p = Except.error JsError.typeError)
    ∧ processEventPure emptyLabelConfig bareClaudePayload = Except.ok none := by
  refine ⟨?_, ?_, ?_, by decide⟩
  · intro config p r h
    rcases processEventPure_result config p with he | hn | ⟨r', hr', hne⟩
    · rw [h] at he
      exact Except.noConfusion he
    · rw [h] at hn
      exact Option.noConfusion (Except.ok.inj hn)
    · rw [h] at hr'
      obtain rfl := Option.some.inj (Except.ok.inj hr')
      exact hne
  · intro config p labels hcfg htext hlab
    exact processEventPure_no_trigger config p labels (commandStep_none _ htext) hcfg
      (Or.inr (resolveLabel_none labels config.triggerType _ hlab))
  · intro tt p ev hev htext
    exact processEventPure_null_labels_throws tt p ev hev (commandStep_none _ htext)

/-- Witness for the amended C6 at a concrete no-match input: a plain
comment with a non-trigger label resolves to `null` under a configured
(non-null) label list. -/
theorem c6_witness :
    processEventPure agentLabelConfig noTriggerPayload = Except.ok none := by
  apply c6_no_trigger_on_empty_instruction.2.1 agentLabelConfig noTriggerPayload
    [jstr "agent"] rfl
  · intro t ht
    have h0 : extractText noTriggerPayload = some (jstr "hello") := by decide
    rw [h0] at ht
    cases Option.some.inj ht
    exact ⟨by decide, by decide⟩
  · intro l hl
    have h0 : extractLabels noTriggerPayload = [jstr "misc"] := by decide
    rw [h0] at hl
    rw [List.mem_singleton.mp hl]
    refine ⟨by decide, by decide, ?_⟩
    intro hmem
    have hm : (jstr "misc" ∈ [jstr "agent"]) := hmem
    rw [List.mem_singleton] at hm
    exact absurd hm (by decide)

/-- C5 — Label-trigger instruction synthesis: an event classifiable by
`getEventType`, carrying the single label `codex` on an issue titled
`Add logging` with body `need structured logs`, whose primary text
carries no command prefix, and with a configured (non-null, non-empty)
trigger-label list, resolves to agent `codex` with the templated
instruction; and when neither an issue title nor a pull-request title is
available, the generic fallback instruction is used. -/
theorem c5_label_instruction_synthesis :
    (∀ (config : TriggerConfig) (p : RawPayload) (ev : EventKind) (i : RawIssue)
        (labels : List JStr),
      getEventType p = some ev →
      p.issue = some i →
      i.labels = some [jstr "codex"] →
      i.title = some (jstr "Add logging") →
      i.body = some (jstr "need structured logs") →
      (∀ t, extractText p = some t → jsStartsWith t (jstr "/claude") = false
        ∧ jsStartsWith t (jstr "/codex") = false) →
      config.triggerLabels = some labels →
      labels ≠ [] →
      processEventPure config p = Except.ok (some ⟨AgentType.codex, ev,
        jstr "Review and address this issue: Add logging\n\nneed structured logs"⟩))
    ∧ (∀ (config : TriggerConfig) (p : RawPayload) (ev : EventKind) (pr : RawPR)
        (labels : List JStr),
      getEventType p = some ev →
      p.issue = none →
      p.pull_request = some pr →
      pr.labels = some [jstr "codex"] →
      pr.title = none →
      (∀ t, extractText p = some t → jsStartsWith t (jstr "/claude") = false
        ∧ jsStartsWith t (jstr "/codex") = false) →
      config.triggerLabels = some labels →
      labels ≠ [] →
      processEventPure config p = Except.ok (some ⟨AgentType.codex, ev,
        jstr "Please review the changes and provide feedback."⟩)) := by
  constructor
  · intro config p ev i labels hev hiss hlab htitle hbody htext hcfg hlen
    have hcmd := commandStep_none _ htext
    have hlabels : extractLabels p = [jstr "codex"] := by
      simp only [extractLabels, hiss, hlab]
      decide
    have hres : resolveLabel labels config.triggerType (extractLabels p)
        = some AgentType.codex := by
      rw [hlabels]
      rfl
    have hdef : defaultLabelPrompt p =
        jstr "Review and address this issue: Add logging\n\nneed structured logs" := by
      simp only [defaultLabelPrompt, hiss, Option.some_bind, htitle, hbody]
      rw [if_pos (by decide)]
      decide
    have hne : defaultLabelPrompt p ≠ [] := by
      rw [hdef]
      decide
    have hmain := processEventPure_label_trigger config p ev AgentType.codex labels
      hev hcmd hcfg hlen hres hne
    rw [hmain, hdef]
  · intro config p ev pr labels hev hiss hpr hlab htitle htext hcfg hlen
    have hcmd := commandStep_none _ htext
    have hlabels : extractLabels p = [jstr "codex"] := by
      simp only [extractLabels, extractLabels.extractLabelsPR, hiss, hpr, hlab]
      decide
    have hres : resolveLabel labels config.triggerType (extractLabels p)
        = some AgentType.codex := by
      rw [hlabels]
      rfl
    have hdef : defaultLabelPrompt p =
        jstr "Please review the changes and provide feedback." := by
      simp only [defaultLabelPrompt, hiss, hpr, Option.none_bind, Option.some_bind, htitle]
      rw [if_neg (by decide), if_neg (by decide)]
    have hne : defaultLabelPrompt p ≠ [] := by
      rw [hdef]
      decide
    have hmain := processEventPure_label_trigger config p ev AgentType.codex labels
      hev hcmd hcfg hlen hres hne
    rw [hmain, hdef]

/-- Witness for C5 at the claim's example payload. -/
theorem c5_witness :
    processEventPure agentLabelConfig codexLabelPayload =
      Except.ok (some ⟨AgentType.codex, EventKind.issuesOpened,
        jstr "Review and address this issue: Add logging\n\nneed structured logs"⟩) := by
  apply c5_label_instruction_synthesis.1 agentLabelConfig codexLabelPayload
    EventKind.issuesOpened codexIssue [jstr "agent"] (by decide) (by decide) (by decide)
    (by decide) (by decide)
  · intro t ht
    have h0 : extractText codexLabelPayload = some (jstr "need structured logs") := by
      decide
    rw [h0] at ht
    cases Option.some.inj ht
    exact ⟨by decide, by decide⟩
  · rfl
  · decide

/-- Counterexample for C10: with a `null` trigger-label list, a
command-free payload carrying the reserved label `codex` does not yield
`null` — the guard dereferences `null` and throws a `TypeError`. -/
theorem c10_counterexample :
    extractLabels codexLabelPayload = [jstr "codex"]
    ∧ processEventPure nullLabelConfig codexLabelPayload = Except.error JsError.typeError
    ∧ processEventPure nullLabelConfig codexLabelPayload ≠ Except.ok none := by
  decide

/-- C10 (amended) — when the configured trigger-label list is empty
(`[]`), label-based resolution is skipped and command-free payloads
yield `null` even with a reserved agent-name label; when the list is
`null` (the `trigger-labels` input unset), the guard throws a
`TypeError` for supported command-free payloads instead of returning
`null`; and with a configured non-empty list, a single issue label whose
lowercasing is `codex` selects agent `codex` (payload label names are
lowercased before comparison, so matching is case-insensitive on the
payload side). -/
theorem c10_label_list_gating_and_lowercasing :
    (∀ (config : TriggerConfig) (p : RawPayload),
      config.triggerLabels = some [] →
      (∀ t, extractText p = some t → jsStartsWith t (jstr "/claude") = false
        ∧ jsStartsWith t (jstr "/codex") = false) →
      processEventPure config p = Except.ok none)
    ∧ (∀ (tt : Option AgentType) (p : RawPayload) (ev : EventKind),
      getEventType p = some ev →
      (∀ t, extractText p = some t → jsStartsWith t (jstr "/claude") = false
        ∧ jsStartsWith t (jstr "/codex") = false) →
      processEventPure ⟨none, tt⟩ p = Except.error JsError.typeError)
    ∧ (∀ (config : TriggerConfig) (p : RawPayload) (ev : EventKind) (i : RawIssue)
        (name : JStr) (labels : List JStr),
      getEventType p = some ev →
      p.issue = some i →
      i.labels = some [name] →
      jsToLower name = jstr "codex" →
      (∀ t, extractText p = some t → jsStartsWith t (jstr "/claude") = false
        ∧ jsStartsWith t (jstr "/codex") = false) →
      config.triggerLabels = some labels →
      labels ≠ [] →
      optTruthy i.title = true →
      ∃ r, processEventPure config p = Except.ok (some r)
        ∧ r.type = AgentType.codex) := by
  refine ⟨?_, ?_, ?_⟩
  · intro config p hcfg htext
    exact processEventPure_no_trigger config p [] (commandStep_none _ htext) hcfg
      (Or.inl rfl)
  · intro tt p ev hev htext
    exact processEventPure_null_labels_throws tt p ev hev (commandStep_none _ htext)
  · intro config p ev i name labels hev hiss hlab hlower htext hcfg hlen htitle
    have hcmd := commandStep_none _ htext
    have hlabels : extractLabels p = [jstr "codex"] := by
      simp only [extractLabels, hiss, hlab, List.map_cons, List.map_nil, hlower]
    have hres : resolveLabel labels config.triggerType (extractLabels p)
        = some AgentType.codex := by
      rw [hlabels]
      rfl
    have hne : defaultLabelPrompt p ≠ [] := by
      simp only [defaultLabelPrompt, hiss, Option.some_bind]
      rw [if_pos htitle]
      exact List.append_ne_nil_of_left_ne_nil
        (List.append_ne_nil_of_left_ne_nil
          (List.append_ne_nil_of_left_ne_nil (by decide) _) _) _
    exact ⟨⟨AgentType.codex, ev, defaultLabelPrompt p⟩,
      processEventPure_label_trigger config p ev AgentType.codex labels
        hev hcmd hcfg hlen hres hne,
      rfl⟩

/-- Witness for the amended C10: the `codex`-labelled payload yields
`null` under an empty (configured) trigger-label list. -/
theorem c10_witness :
    processEventPure emptyLabelConfig codexLabelPayload = Except.ok none := by
  apply c10_label_list_gating_and_lowercasing.1 emptyLabelConfig codexLabelPayload rfl
  intro t ht
  have h0 : extractText codexLabelPayload = some (jstr "need structured logs") := by
    decide
  rw [h0] at ht
  cases Option.some.inj ht
  exact ⟨by decide, by decide⟩
/-- Witness for C1 at the spec's example snapshots
(`before = {a:h1, b:h2}`, `after = {a:h1, c:h3}`, path `b`). -/
theorem c1_witness :
    ("b" ∈ detectChangesPure [("a", "h1"), ("b", "h2")] [("a", "h1"), ("c", "h3")] ↔
      (("b" ∈ snapKeys [("a", "h1"), ("c", "h3")]
          ∧ "b" ∉ snapKeys [("a", "h1"), ("b", "h2")])
        ∨ ("b" ∈ snapKeys [("a", "h1"), ("b", "h2")]
          ∧ "b" ∉ snapKeys [("a", "h1"), ("c", "h3")])
        ∨ (∃ d1 d2, snapGet [("a", "h1"), ("b", "h2")] "b" = some d1
            ∧ snapGet [("a", "h1"), ("c", "h3")] "b" = some d2 ∧ d1 ≠ d2)))
    ∧ (detectChangesPure [("a", "h1"), ("b", "h2")] [("a", "h1"), ("c", "h3")]).Nodup :=
  c1_detectChanges_diff [("a", "h1"), ("b", "h2")] [("a", "h1"), ("c", "h3")] "b"
    (by decide) (by decide) (by decide)
